import Mathlib

/-!
Shallow embedding of the portfolio application in src/app.py.

The persistent store holds User and Project rows; the Flask route handlers
admin_login, admin_dashboard (POST = createProject), edit_project and
delete_project are embedded as pure functions over an explicit store and an
explicit session value.  External collaborators are passed as parameters:
the password-hash check (werkzeug check_password_hash), the hash generator
(generate_password_hash) and the blob upload client (supabase) — the latter
as an Option of an upload function returning some url on success and none
when the upload raises.
-/

namespace Portfolio

/-- User row (class User, src/app.py lines 50-54). -/
structure User where
  id : Nat
  email : String
  password : String
  is_admin : Bool
deriving Repr, DecidableEq

/-- Project row (class Project, src/app.py lines 56-62).  Fields read from
the form with request.form.get are Option String (Python None when the key
is absent); tech_stack and image_filename are always assigned a string by
the handlers. -/
structure Project where
  id : Nat
  title : Option String
  description : Option String
  tech_stack : String
  link : Option String
  image_filename : String
deriving Repr, DecidableEq

/-- The relational store backing SQLAlchemy queries. -/
structure Store where
  users : List User
  projects : List Project
deriving Repr, DecidableEq

/-- Multipart upload file (request.files object). -/
structure UploadedFile where
  filename : String
  content : String
deriving Repr, DecidableEq

/-- The form fields that the create and edit handlers read:
request.form.get yields none when absent; request.form.getlist yields a
list (empty when absent); the optional image part of request.files. -/
structure CreateForm where
  title : Option String
  description : Option String
  link : Option String
  tech_stack : List String
  image : Option UploadedFile
deriving Repr, DecidableEq

/-- Messages passed to flash in the handlers. -/
inductive Flash where
  | accessDenied
  | invalidCredentials
  | uploadFailed
deriving Repr, DecidableEq

/-- login_manager.login_view (src/app.py line 47): the endpoint an
unauthenticated request to a login_required route is redirected to. -/
def login_view : String := "home"

/-- HTTP responses produced by the embedded handlers. -/
inductive Response where
  | redirectEndpoint (endpoint : String)
  | redirectDashboard (token : String)
  | renderLogin (token : String) (flash : Option Flash)
  | renderDashboard (token : String) (flashes : List Flash) (projects : List Project)
  | notFound
deriving Repr, DecidableEq

/-- Classification of a handler response by its authentication outcome:
the login_required redirect, the two login failure flashes, or access past
the gate. -/
inductive AuthOutcome where
  | unauthenticated
  | invalidCredentials
  | accessDenied
  | granted
deriving Repr, DecidableEq

def Response.authOutcome : Response → AuthOutcome
  | .redirectEndpoint _ => .unauthenticated
  | .redirectDashboard _ => .granted
  | .renderLogin _ (some .invalidCredentials) => .invalidCredentials
  | .renderLogin _ (some .accessDenied) => .accessDenied
  | .renderLogin _ _ => .granted
  | .renderDashboard _ _ _ => .granted
  | .notFound => .granted

/-- The flash messages attached to a response. -/
def Response.flashes : Response → List Flash
  | .renderLogin _ (some f) => [f]
  | .renderDashboard _ fl _ => fl
  | _ => []

/-- Python str.split for the comma separator, accumulator form.  The
accumulator holds the current fragment reversed. -/
def splitAux : List Char → List Char → List (List Char)
  | [], acc => [acc.reverse]
  | c :: cs, acc =>
      if c = ',' then acc.reverse :: splitAux cs [] else splitAux cs (c :: acc)

/-- Python comma join over raw character lists. -/
def joinAux : List (List Char) → List Char
  | [] => []
  | [t] => t
  | t :: ts => t ++ ',' :: joinAux ts

/-- Python s.split(",") on strings. -/
def pySplit (s : String) : List String :=
  (splitAux s.data []).map String.mk

/-- Python ",".join(l) on strings (src/app.py lines 168 and 191). -/
def joinComma (l : List String) : String :=
  String.mk (joinAux (l.map String.data))

/-- The tech-stack view: p.tech_stack.split(",") if p.tech_stack else []
(src/app.py line 80) — the empty string is falsy in Python. -/
def split_tech (s : String) : List String :=
  if s = "" then [] else pySplit s

/-- The JSON object built per project by get_projects (src/app.py 80-87). -/
structure ProjectView where
  title : Option String
  description : Option String
  tech_stack : List String
  link : Option String
  image_url : String
deriving Repr, DecidableEq

def projectToView (p : Project) : ProjectView :=
  ⟨p.title, p.description, split_tech p.tech_stack, p.link, p.image_filename⟩

/-- Insert a project into a list kept in descending id order. -/
def insertDesc (p : Project) : List Project → List Project
  | [] => [p]
  | q :: qs => if q.id ≤ p.id then p :: q :: qs else q :: insertDesc p qs

/-- Project.query.order_by(Project.id.desc()).all() (src/app.py 72, 180). -/
def orderByIdDesc : List Project → List Project
  | [] => []
  | p :: ps => insertDesc p (orderByIdDesc ps)

/-- GET / (home, src/app.py 70-73): the projects passed to the template. -/
def home (s : Store) : List Project :=
  orderByIdDesc s.projects

/-- The admin dashboard listing (src/app.py 180): same ordered query. -/
def admin_listing (s : Store) : List Project :=
  orderByIdDesc s.projects

/-- GET /api/projects (get_projects, src/app.py 75-88):
Project.query.all() with no order_by, mapped to JSON objects. -/
def get_projects (s : Store) : List ProjectView :=
  s.projects.map projectToView

/-- POST /secret-admin-login/(token) (admin_login, src/app.py 127-143).
chk embeds check_password_hash; returns the response and the session after
the request (login_user sets it to the user id; otherwise it is left). -/
def admin_login_post (chk : String → String → Bool) (token : String)
    (sess : Option Nat) (users : List User) (email password : String) :
    Response × Option Nat :=
  match users.find? (fun u => u.email == email) with
  | some user =>
      if chk user.password password then
        if user.is_admin then
          (.redirectDashboard token, some user.id)
        else
          (.renderLogin token (some .accessDenied), sess)
      else
        (.renderLogin token (some .invalidCredentials), sess)
  | none => (.renderLogin token (some .invalidCredentials), sess)

/-- The image url and warning flag computed by the create handler
(src/app.py 149-165): placeholder by default; upload only attempted when an
image part with a nonempty filename is present and the supabase client
exists; on upload failure the placeholder stays and a warning is flashed. -/
def create_image_url (sup : Option (UploadedFile → Option String))
    (image : Option UploadedFile) : String × Bool :=
  match image with
  | none => ("https://via.placeholder.com/800x600?text=No+Image", false)
  | some file =>
      if file.filename ≠ "" then
        match sup with
        | some up =>
            match up file with
            | some url => (url, false)
            | none => ("https://via.placeholder.com/800x600?text=No+Image", true)
        | none => ("https://via.placeholder.com/800x600?text=No+Image", false)
      else
        ("https://via.placeholder.com/800x600?text=No+Image", false)

def placeholder_url : String := "https://via.placeholder.com/800x600?text=No+Image"

/-- POST /secret-admin-login/dashboard/(token) (admin_dashboard,
src/app.py 145-181): login_required redirects to login_view when no session
is attached; otherwise the project row is created unconditionally and the
dashboard is rendered with the ordered listing. -/
def admin_dashboard_post (sup : Option (UploadedFile → Option String))
    (token : String) (sess : Option Nat) (s : Store) (form : CreateForm)
    (nextId : Nat) : Response × Store :=
  match sess with
  | none => (.redirectEndpoint login_view, s)
  | some _ =>
      let iw := create_image_url sup form.image
      let newProj : Project :=
        ⟨nextId, form.title, form.description, joinComma form.tech_stack,
          form.link, iw.1⟩
      let s2 : Store := { s with projects := s.projects ++ [newProj] }
      (.renderDashboard token (if iw.2 then [.uploadFailed] else [])
        (orderByIdDesc s2.projects), s2)

/-- The mutation edit_project applies to the fetched row (src/app.py
187-205): title, description, link and tech_stack are overwritten
unconditionally from the form; image_filename is replaced only by a
successful upload and kept on failure. -/
def edit_apply (sup : Option (UploadedFile → Option String))
    (form : CreateForm) (project : Project) : Project :=
  let p1 : Project :=
    { project with
        title := form.title
        description := form.description
        link := form.link
        tech_stack := joinComma form.tech_stack }
  match form.image with
  | none => p1
  | some file =>
      if file.filename ≠ "" then
        match sup with
        | some up =>
            match up file with
            | some url => { p1 with image_filename := url }
            | none => p1
        | none => p1
      else
        p1

/-- POST /edit-project/(token)/(id) (edit_project, src/app.py 183-208):
login_required gate, then get_or_404, then the overwrite is committed. -/
def edit_project (sup : Option (UploadedFile → Option String))
    (token : String) (sess : Option Nat) (s : Store) (pid : Nat)
    (form : CreateForm) : Response × Store :=
  match sess with
  | none => (.redirectEndpoint login_view, s)
  | some _ =>
      match s.projects.find? (fun p => p.id == pid) with
      | none => (.notFound, s)
      | some project =>
          (.redirectDashboard token,
            { s with
                projects := s.projects.map
                  (fun q => if q.id == pid then edit_apply sup form project else q) })

/-- POST /delete-project/(token)/(id) (delete_project, src/app.py 210-216). -/
def delete_project (token : String) (sess : Option Nat) (s : Store)
    (pid : Nat) : Response × Store :=
  match sess with
  | none => (.redirectEndpoint login_view, s)
  | some _ =>
      match s.projects.find? (fun p => p.id == pid) with
      | none => (.notFound, s)
      | some _ =>
          (.redirectDashboard token,
            { s with projects := s.projects.filter (fun p => p.id != pid) })

/-- The bootstrap block (src/app.py 224-238): look up the configured admin
email and create the admin row with a hashed password only when absent.
gh embeds generate_password_hash. -/
def bootstrap (gh : String → String) (admin_email admin_password : String)
    (users : List User) (nextId : Nat) : List User :=
  match users.find? (fun u => u.email == admin_email) with
  | some _ => users
  | none => users ++ [⟨nextId, admin_email, gh admin_password, true⟩]

/-- Whole-system state: the store, the session cookie of the one browser
client, and the autoincrement counter for project ids. -/
structure SysState where
  store : Store
  session : Option Nat
  nextId : Nat
deriving Repr

/-- The requests that touch the session or the project store. -/
inductive Action where
  | loginA (token email password : String)
  | createA (token : String) (form : CreateForm)
  | editA (token : String) (pid : Nat) (form : CreateForm)
  | deleteA (token : String) (pid : Nat)
  | logoutA
deriving Repr

/-- One request handled against the current state, dispatching to the
embedded route handlers. -/
def step (chk : String → String → Bool)
    (sup : Option (UploadedFile → Option String)) (st : SysState)
    (a : Action) : SysState :=
  match a with
  | .loginA token email password =>
      { st with
          session :=
            (admin_login_post chk token st.session st.store.users email
              password).2 }
  | .createA token form =>
      { st with
          store := (admin_dashboard_post sup token st.session st.store form
            st.nextId).2
          nextId := if st.session.isSome then st.nextId + 1 else st.nextId }
  | .editA token pid form =>
      { st with store := (edit_project sup token st.session st.store pid form).2 }
  | .deleteA token pid =>
      { st with store := (delete_project token st.session st.store pid).2 }
  | .logoutA => { st with session := none }

/-- Handle a sequence of requests. -/
def run (chk : String → String → Bool)
    (sup : Option (UploadedFile → Option String)) (st : SysState) :
    List Action → SysState
  | [] => st
  | a :: as => run chk sup (step chk sup st a) as

/-- The reachable-session invariant: any established session is bound to a
stored user whose is_admin flag is true. -/
def SessionAdmin (st : SysState) : Prop :=
  ∀ uid, st.session = some uid →
    ∃ u, u ∈ st.store.users ∧ u.id = uid ∧ u.is_admin = true

end Portfolio

namespace Portfolio

/-- Claim C1: login looks up the user by exact email; when no row matches,
or the stored-hash check fails, the result flashes invalid credentials and
the session is unchanged; when the hash check succeeds but is_admin is
false, it flashes access denied and the session is unchanged; otherwise a
session bound to that user id is established. -/
theorem C1_login_contract (chk : String → String → Bool) (token : String)
    (sess : Option Nat) (users : List User) (email password : String) :
    (users.find? (fun u => u.email == email) = none →
      admin_login_post chk token sess users email password
        = (.renderLogin token (some .invalidCredentials), sess)) ∧
    (∀ u, users.find? (fun v => v.email == email) = some u →
      (chk u.password password = false →
        admin_login_post chk token sess users email password
          = (.renderLogin token (some .invalidCredentials), sess)) ∧
      (chk u.password password = true → u.is_admin = false →
        admin_login_post chk token sess users email password
          = (.renderLogin token (some .accessDenied), sess)) ∧
      (chk u.password password = true → u.is_admin = true →
        admin_login_post chk token sess users email password
          = (.redirectDashboard token, some u.id))) := by
  constructor
  · intro h
    simp [admin_login_post, h]
  · intro u hu
    refine ⟨?_, ?_, ?_⟩
    · intro hc
      simp [admin_login_post, hu, hc]
    · intro hc ha
      simp [admin_login_post, hu, hc, ha]
    · intro hc ha
      simp [admin_login_post, hu, hc, ha]

/-- Concrete instance of the login contract: an admin user with the right
password obtains a session bound to their id. -/
theorem C1_login_contract_witness :
    admin_login_post (fun h p => h == "hash:" ++ p) "tok" none
      [⟨7, "a@b.c", "hash:pw", true⟩] "a@b.c" "pw"
      = (.redirectDashboard "tok", some 7) :=
  ((C1_login_contract (fun h p => h == "hash:" ++ p) "tok" none
      [⟨7, "a@b.c", "hash:pw", true⟩] "a@b.c" "pw").2
    ⟨7, "a@b.c", "hash:pw", true⟩ (by decide)).2.2 (by decide) rfl

/-- Claim C3: from a store with no users, bootstrap creates exactly one
user: an admin row with the configured email and the hash of the configured
password; and bootstrap is idempotent — running it again on any resulting
store adds no further row. -/
theorem C3_bootstrap (gh : String → String) (e p : String) (n m : Nat) :
    bootstrap gh e p [] n = [⟨n, e, gh p, true⟩] ∧
    ((bootstrap gh e p [] n).filter (fun u => u.is_admin)).length = 1 ∧
    (∀ users, bootstrap gh e p (bootstrap gh e p users n) m
      = bootstrap gh e p users n) := by
  refine ⟨rfl, ?_, ?_⟩
  · simp [bootstrap]
  · intro users
    cases h : users.find? (fun u => u.email == e) with
    | some u =>
        simp only [bootstrap, h]
    | none =>
        have h2 : (users ++ [(⟨n, e, gh p, true⟩ : User)]).find?
            (fun u => u.email == e) = some ⟨n, e, gh p, true⟩ := by
          rw [List.find?_append, h]
          simp
        simp only [bootstrap, h, h2]

/-- Claim C4: the token path parameter never influences the authentication
outcome, the resulting session, or the store mutation of any admin route —
for any two token values all those components coincide. -/
theorem C4_token_irrelevant (chk : String → String → Bool)
    (sup : Option (UploadedFile → Option String)) (t1 t2 : String)
    (sess : Option Nat) (users : List User) (email password : String)
    (s : Store) (form : CreateForm) (nextId pid : Nat) :
    ((admin_login_post chk t1 sess users email password).2
        = (admin_login_post chk t2 sess users email password).2 ∧
      (admin_login_post chk t1 sess users email password).1.authOutcome
        = (admin_login_post chk t2 sess users email password).1.authOutcome) ∧
    ((admin_dashboard_post sup t1 sess s form nextId).2
        = (admin_dashboard_post sup t2 sess s form nextId).2 ∧
      (admin_dashboard_post sup t1 sess s form nextId).1.authOutcome
        = (admin_dashboard_post sup t2 sess s form nextId).1.authOutcome) ∧
    ((edit_project sup t1 sess s pid form).2
        = (edit_project sup t2 sess s pid form).2 ∧
      (edit_project sup t1 sess s pid form).1.authOutcome
        = (edit_project sup t2 sess s pid form).1.authOutcome) ∧
    ((delete_project t1 sess s pid).2 = (delete_project t2 sess s pid).2 ∧
      (delete_project t1 sess s pid).1.authOutcome
        = (delete_project t2 sess s pid).1.authOutcome) := by
  refine ⟨⟨?_, ?_⟩, ⟨?_, ?_⟩, ⟨?_, ?_⟩, ?_, ?_⟩ <;>
    cases sess <;>
      simp only [admin_login_post, admin_dashboard_post, edit_project,
        delete_project] <;>
      first
        | rfl
        | (cases users.find? (fun u => u.email == email) <;>
            first
              | rfl
              | (rename_i u
                 cases hc : chk u.password password <;>
                   cases ha : u.is_admin <;>
                     first | rfl | simp [hc, ha, Response.authOutcome]))
        | (cases s.projects.find? (fun q => q.id == pid) <;> rfl)

/-- Claim C5: a create, edit or delete request with no session attached is
answered by a redirect to the configured login entry point (login_view) and
leaves the store untouched; its authentication outcome is unauthenticated. -/
theorem C5_unauthenticated_no_mutation
    (sup : Option (UploadedFile → Option String)) (token : String)
    (s : Store) (form : CreateForm) (nextId pid : Nat) :
    admin_dashboard_post sup token none s form nextId
        = (.redirectEndpoint login_view, s) ∧
    edit_project sup token none s pid form
        = (.redirectEndpoint login_view, s) ∧
    delete_project token none s pid = (.redirectEndpoint login_view, s) ∧
    (Response.redirectEndpoint login_view).authOutcome = .unauthenticated :=
  ⟨rfl, rfl, rfl, rfl⟩

/-- The fields overwritten by edit_apply never depend on the image branch:
title, description, link and tech_stack always come from the form. -/
theorem edit_apply_fields (sup : Option (UploadedFile → Option String))
    (form : CreateForm) (proj : Project) :
    (edit_apply sup form proj).title = form.title ∧
    (edit_apply sup form proj).description = form.description ∧
    (edit_apply sup form proj).link = form.link ∧
    (edit_apply sup form proj).tech_stack = joinComma form.tech_stack := by
  unfold edit_apply
  cases form.image with
  | none => simp
  | some f =>
      by_cases hf : f.filename = ""
      · simp [hf]
      · cases sup with
        | none => simp [hf]
        | some up => cases h : up f <;> simp [hf, h]

/-- Claim C6: with a session attached, createProject adds the row
unconditionally, with the image url computed by create_image_url; no image
part or an empty filename gives the placeholder with no warning; an
attempted upload that fails still stores the placeholder and flashes a
non-fatal warning; only a successful upload stores the returned url. -/
theorem C6_create_contract (sup : Option (UploadedFile → Option String))
    (token : String) (uid : Nat) (s : Store) (form : CreateForm)
    (nextId : Nat) :
    (admin_dashboard_post sup token (some uid) s form nextId).2.projects
        = s.projects ++ [⟨nextId, form.title, form.description,
            joinComma form.tech_stack, form.link,
            (create_image_url sup form.image).1⟩] ∧
    (form.image = none →
      create_image_url sup form.image = (placeholder_url, false)) ∧
    (∀ f, form.image = some f → f.filename = "" →
      create_image_url sup form.image = (placeholder_url, false)) ∧
    (∀ f up, form.image = some f → f.filename ≠ "" → sup = some up →
      up f = none →
      create_image_url sup form.image = (placeholder_url, true) ∧
      (admin_dashboard_post sup token (some uid) s form nextId).1.flashes
        = [.uploadFailed]) ∧
    (∀ f up url, form.image = some f → f.filename ≠ "" → sup = some up →
      up f = some url → create_image_url sup form.image = (url, false)) := by
  refine ⟨rfl, ?_, ?_, ?_, ?_⟩
  · intro h
    simp [create_image_url, h, placeholder_url]
  · intro f himg hf
    simp [create_image_url, himg, hf, placeholder_url]
  · intro f up himg hf hsup hup
    subst hsup
    have hc : create_image_url (some up) form.image = (placeholder_url, true) := by
      simp [create_image_url, himg, hf, hup, placeholder_url]
    refine ⟨hc, ?_⟩
    simp [admin_dashboard_post, hc, Response.flashes]
  · intro f up url himg hf hsup hup
    subst hsup
    simp [create_image_url, himg, hf, hup]

/-- Concrete instance of the create contract: an upload that fails still
creates the project, with the placeholder url and a flashed warning. -/
theorem C6_create_contract_witness :
    (admin_dashboard_post (some (fun _ => none)) "t" (some 1) ⟨[], []⟩
        ⟨some "X", none, none, ["Go"], some ⟨"a.png", "bytes"⟩⟩ 1).2.projects
      = [⟨1, some "X", none, "Go", none, placeholder_url⟩] ∧
    (admin_dashboard_post (some (fun _ => none)) "t" (some 1) ⟨[], []⟩
        ⟨some "X", none, none, ["Go"], some ⟨"a.png", "bytes"⟩⟩ 1).1.flashes
      = [.uploadFailed] := by
  have h := C6_create_contract (some (fun _ => none)) "t" 1 ⟨[], []⟩
      ⟨some "X", none, none, ["Go"], some ⟨"a.png", "bytes"⟩⟩ 1
  have h4 := h.2.2.2.1 ⟨"a.png", "bytes"⟩ (fun _ => none) rfl (by decide)
      rfl rfl
  refine ⟨?_, h4.2⟩
  rw [h.1, h4.1]
  decide

/-- Claim C7: editing an existing project when the attempted image upload
fails commits the overwrite of title, description, link and tech_stack but
leaves image_filename at its previous value. -/
theorem C7_edit_upload_failure_keeps_image
    (sup : Option (UploadedFile → Option String))
    (up : UploadedFile → Option String) (token : String) (uid : Nat)
    (s : Store) (pid : Nat) (form : CreateForm) (f : UploadedFile)
    (proj : Project) (hsup : sup = some up) (himg : form.image = some f)
    (hf : f.filename ≠ "") (hup : up f = none)
    (hfind : s.projects.find? (fun p => p.id == pid) = some proj) :
    edit_project sup token (some uid) s pid form
      = (.redirectDashboard token,
          { s with
              projects := s.projects.map (fun q =>
                if q.id == pid then
                  { proj with
                      title := form.title
                      description := form.description
                      link := form.link
                      tech_stack := joinComma form.tech_stack }
                else q) }) := by
  subst hsup
  have hap : edit_apply (some up) form proj
      = { proj with
            title := form.title
            description := form.description
            link := form.link
            tech_stack := joinComma form.tech_stack } := by
    simp [edit_apply, himg, hf, hup]
  simp only [edit_project, hfind, hap]

/-- Concrete instance of the edit contract under upload failure: the old
image reference survives while all other fields are overwritten. -/
theorem C7_edit_upload_failure_keeps_image_witness :
    edit_project (some (fun _ => none)) "t" (some 1)
        ⟨[], [⟨2, none, none, "", none, "old.png"⟩]⟩ 2
        ⟨some "T", some "D", some "L", ["Go", "Rust"], some ⟨"n.png", "c"⟩⟩
      = (.redirectDashboard "t",
          ⟨[], [⟨2, some "T", some "D", "Go,Rust", some "L", "old.png"⟩]⟩) := by
  have h := C7_edit_upload_failure_keeps_image (some (fun _ => none))
      (fun _ => none) "t" 1 ⟨[], [⟨2, none, none, "", none, "old.png"⟩]⟩ 2
      ⟨some "T", some "D", some "L", ["Go", "Rust"], some ⟨"n.png", "c"⟩⟩
      ⟨"n.png", "c"⟩ ⟨2, none, none, "", none, "old.png"⟩
      rfl rfl (by decide) rfl (by decide)
  exact h.trans (by decide)

/-- Claim C8: editing an existing project overwrites title, description,
link and tech_stack unconditionally with the submitted form values; a field
absent from the form (read as none by form.get, an empty list by
form.getlist) is stored as the empty value, never left at its previous
value. -/
theorem C8_edit_full_replace
    (sup : Option (UploadedFile → Option String)) (token : String)
    (uid : Nat) (s : Store) (pid : Nat) (form : CreateForm) (proj : Project)
    (hfind : s.projects.find? (fun p => p.id == pid) = some proj) :
    (edit_project sup token (some uid) s pid form).2.projects
        = s.projects.map (fun q =>
            if q.id == pid then edit_apply sup form proj else q) ∧
    (edit_apply sup form proj).title = form.title ∧
    (edit_apply sup form proj).description = form.description ∧
    (edit_apply sup form proj).link = form.link ∧
    (edit_apply sup form proj).tech_stack = joinComma form.tech_stack ∧
    (form.title = none → (edit_apply sup form proj).title = none) ∧
    (form.tech_stack = [] → (edit_apply sup form proj).tech_stack = "") := by
  obtain ⟨h1, h2, h3, h4⟩ := edit_apply_fields sup form proj
  refine ⟨by simp [edit_project, hfind], h1, h2, h3, h4, ?_, ?_⟩
  · intro h
    rw [h1, h]
  · intro h
    rw [h4, h]
    rfl

/-- Concrete instance of the edit overwrite contract: a form with every
field absent clears the previously set fields rather than keeping them. -/
theorem C8_edit_full_replace_witness :
    (edit_project none "t" (some 1)
        ⟨[], [⟨2, some "Old", some "OldD", "Go", some "OldL", "img"⟩]⟩ 2
        ⟨none, none, none, [], none⟩).2.projects
      = [⟨2, none, none, "", none, "img"⟩] := by
  have h := C8_edit_full_replace none "t" 1
      ⟨[], [⟨2, some "Old", some "OldD", "Go", some "OldL", "img"⟩]⟩ 2
      ⟨none, none, none, [], none⟩
      ⟨2, some "Old", some "OldD", "Go", some "OldL", "img"⟩ (by decide)
  rw [h.1]
  decide

theorem mem_insertDesc (p b : Project) (l : List Project) :
    b ∈ insertDesc p l ↔ b = p ∨ b ∈ l := by
  induction l with
  | nil => simp [insertDesc]
  | cons q qs ih =>
      by_cases h : q.id ≤ p.id
      · simp [insertDesc, h]
      · simp only [insertDesc, if_neg h, List.mem_cons, ih]
        tauto

theorem pairwise_insertDesc (p : Project) (l : List Project)
    (h : l.Pairwise (fun a b => b.id ≤ a.id)) :
    (insertDesc p l).Pairwise (fun a b => b.id ≤ a.id) := by
  induction l with
  | nil => simp [insertDesc]
  | cons q qs ih =>
      rcases List.pairwise_cons.mp h with ⟨hq, hqs⟩
      by_cases hle : q.id ≤ p.id
      · rw [insertDesc, if_pos hle]
        refine List.pairwise_cons.mpr ⟨?_, h⟩
        intro b hb
        rcases List.mem_cons.mp hb with rfl | hb2
        · exact hle
        · exact le_trans (hq b hb2) hle
      · rw [insertDesc, if_neg hle]
        refine List.pairwise_cons.mpr ⟨?_, ih hqs⟩
        intro b hb
        rcases (mem_insertDesc p b qs).mp hb with rfl | hb2
        · exact le_of_lt (lt_of_not_le hle)
        · exact hq b hb2

theorem perm_insertDesc (p : Project) (l : List Project) :
    List.Perm (insertDesc p l) (p :: l) := by
  induction l with
  | nil => simp [insertDesc]
  | cons q qs ih =>
      by_cases h : q.id ≤ p.id
      · rw [insertDesc, if_pos h]
      · rw [insertDesc, if_neg h]
        exact (ih.cons q).trans (List.Perm.swap p q qs)

theorem sorted_orderByIdDesc (l : List Project) :
    (orderByIdDesc l).Pairwise (fun a b => b.id ≤ a.id) ∧
    List.Perm (orderByIdDesc l) l := by
  induction l with
  | nil => exact ⟨List.Pairwise.nil, List.Perm.refl []⟩
  | cons p ps ih =>
      exact ⟨pairwise_insertDesc p _ ih.1,
        (perm_insertDesc p (orderByIdDesc ps)).trans (ih.2.cons p)⟩

/-- Claim C2 counterexample: a store holding two projects in ascending id
order is returned by GET /api/projects in that stored order, not in the
descending-id order of the listing page and the admin listing. -/
theorem C2_api_not_sorted_counterexample :
    get_projects ⟨[], [⟨1, some "A", none, "", none, "u1"⟩,
        ⟨2, some "B", none, "", none, "u2"⟩]⟩
      ≠ (admin_listing ⟨[], [⟨1, some "A", none, "", none, "u1"⟩,
          ⟨2, some "B", none, "", none, "u2"⟩]⟩).map projectToView := by
  decide

/-- Claim C2 amended: the public listing page uses the same query as the
admin listing and is a descending-by-id permutation of the stored projects;
the GET /api/projects endpoint instead maps the stored projects to views in
store order, without reordering. -/
theorem C2_amended_orderings (s : Store) :
    home s = admin_listing s ∧
    (home s).Pairwise (fun a b => b.id ≤ a.id) ∧
    List.Perm (home s) s.projects ∧
    get_projects s = s.projects.map projectToView :=
  ⟨rfl, (sorted_orderByIdDesc s.projects).1,
    (sorted_orderByIdDesc s.projects).2, rfl⟩

theorem splitAux_no_comma (t : List Char) (acc : List Char)
    (h : ',' ∉ t) : splitAux t acc = [acc.reverse ++ t] := by
  induction t generalizing acc with
  | nil => simp [splitAux]
  | cons c cs ih =>
      have hc : ¬ c = ',' := fun hc => h (hc ▸ List.mem_cons_self c cs)
      rw [splitAux, if_neg hc, ih _ (fun hm => h (List.mem_cons_of_mem c hm))]
      simp

theorem splitAux_append_comma (t rest acc : List Char) (h : ',' ∉ t) :
    splitAux (t ++ ',' :: rest) acc = (acc.reverse ++ t) :: splitAux rest [] := by
  induction t generalizing acc with
  | nil => simp [splitAux]
  | cons c cs ih =>
      have hc : ¬ c = ',' := fun hc => h (hc ▸ List.mem_cons_self c cs)
      rw [List.cons_append, splitAux, if_neg hc,
        ih _ (fun hm => h (List.mem_cons_of_mem c hm))]
      simp

theorem joinAux_roundtrip (l : List (List Char)) (hl : l ≠ [])
    (h : ∀ t ∈ l, ',' ∉ t) : splitAux (joinAux l) [] = l := by
  induction l with
  | nil => exact absurd rfl hl
  | cons t ts ih =>
      cases ts with
      | nil =>
          rw [joinAux, splitAux_no_comma t [] (h t (List.mem_cons_self t []))]
          simp
      | cons t2 ts2 =>
          have e : joinAux (t :: t2 :: ts2) = t ++ ',' :: joinAux (t2 :: ts2) := rfl
          rw [e, splitAux_append_comma t _ []
            (h t (List.mem_cons_self t _))]
          rw [ih (List.cons_ne_nil t2 ts2) (fun u hu => h u (List.mem_cons_of_mem t hu))]
          simp

theorem mk_data (s : String) : String.mk s.data = s := rfl

theorem joinComma_ne_empty (l : List String) (h0 : l ≠ []) (h1 : l ≠ [""]) :
    joinComma l ≠ "" := by
  cases l with
  | nil => exact absurd rfl h0
  | cons t ts =>
      cases ts with
      | nil =>
          have ht : t ≠ "" := fun h => h1 (by rw [h])
          simpa [joinComma, joinAux, mk_data] using ht
      | cons t2 ts2 =>
          intro hc
          have : (joinComma (t :: t2 :: ts2)).data = ("" : String).data := by
            rw [hc]
          rw [joinComma] at this
          simp only [List.map_cons, joinAux] at this
          cases ht : t.data <;> simp [ht] at this

/-- Claim C9 counterexample: the one-element sequence holding the empty tag
contains no delimiter character, yet joining and splitting it yields the
empty sequence, not the original sequence — the Python truthiness guard
maps the empty stored string to the empty list. -/
theorem C9_roundtrip_counterexample :
    (∀ t ∈ ([""] : List String), ',' ∉ t.data) ∧
    split_tech (joinComma [""]) ≠ [""] ∧
    split_tech (joinComma [""]) = [] := by
  refine ⟨?_, by decide, by decide⟩
  intro t ht
  simp at ht
  subst ht
  simp

/-- Claim C9 amended: the view splits the stored string on the comma, the
empty string yielding the empty sequence; and join-then-split recovers any
tag sequence none of whose tags contains the delimiter, except the
one-element sequence holding the empty tag (which round-trips to the empty
sequence). -/
theorem C9_split_join_roundtrip (l : List String)
    (h : ∀ t ∈ l, ',' ∉ t.data) (hne : l ≠ [""]) :
    split_tech "" = [] ∧ split_tech (joinComma l) = l := by
  refine ⟨rfl, ?_⟩
  by_cases h0 : l = []
  · subst h0
    decide
  · rw [split_tech, if_neg (joinComma_ne_empty l h0 hne)]
    rw [pySplit, joinComma, mk_data,
      joinAux_roundtrip (l.map String.data) (by simpa using h0)
        (by
          intro u hu
          rcases List.mem_map.mp hu with ⟨t, ht, rfl⟩
          exact h t ht)]
    have hid : String.mk ∘ String.data = id := rfl
    rw [List.map_map, hid, List.map_id]

/-- Concrete instance of the round trip on the tag sequence of the spec
scenario. -/
theorem C9_split_join_roundtrip_witness :
    (∀ t ∈ (["Go", "Rust"] : List String), ',' ∉ t.data) ∧
    (["Go", "Rust"] : List String) ≠ [""] ∧
    (split_tech "" = [] ∧
      split_tech (joinComma ["Go", "Rust"]) = ["Go", "Rust"]) :=
  ⟨by decide, by decide,
    C9_split_join_roundtrip ["Go", "Rust"] (by decide) (by decide)⟩

theorem users_admin_dashboard_post
    (sup : Option (UploadedFile → Option String)) (token : String)
    (sess : Option Nat) (s : Store) (form : CreateForm) (nextId : Nat) :
    (admin_dashboard_post sup token sess s form nextId).2.users = s.users := by
  cases sess <;> simp [admin_dashboard_post]

theorem users_edit_project (sup : Option (UploadedFile → Option String))
    (token : String) (sess : Option Nat) (s : Store) (pid : Nat)
    (form : CreateForm) :
    (edit_project sup token sess s pid form).2.users = s.users := by
  cases sess with
  | none => rfl
  | some u =>
      simp only [edit_project]
      cases s.projects.find? (fun p => p.id == pid) <;> rfl

theorem users_delete_project (token : String) (sess : Option Nat) (s : Store)
    (pid : Nat) : (delete_project token sess s pid).2.users = s.users := by
  cases sess with
  | none => rfl
  | some u =>
      simp only [delete_project]
      cases s.projects.find? (fun p => p.id == pid) <;> rfl

theorem login_session_cases (chk : String → String → Bool) (token : String)
    (sess : Option Nat) (users : List User) (email password : String) :
    (admin_login_post chk token sess users email password).2 = sess ∨
    ∃ u, u ∈ users ∧ u.is_admin = true ∧
      (admin_login_post chk token sess users email password).2 = some u.id := by
  unfold admin_login_post
  cases hf : users.find? (fun u => u.email == email) with
  | none => left; rfl
  | some u =>
      cases hc : chk u.password password with
      | false => left; simp [hc]
      | true =>
          cases ha : u.is_admin with
          | false => left; simp [hc, ha]
          | true =>
              right
              exact ⟨u, List.mem_of_find?_eq_some hf, ha, by simp [hc, ha]⟩

theorem step_preserves_SessionAdmin (chk : String → String → Bool)
    (sup : Option (UploadedFile → Option String)) (st : SysState)
    (a : Action) (h : SessionAdmin st) : SessionAdmin (step chk sup st a) := by
  cases a with
  | loginA token email password =>
      intro uid huid
      simp only [step] at huid ⊢
      rcases login_session_cases chk token st.session st.store.users email
          password with he | ⟨u, hu, ha, he⟩
      · exact h uid (he ▸ huid)
      · rw [he] at huid
        exact ⟨u, hu, Option.some.inj huid, ha⟩
  | createA token form =>
      intro uid huid
      simp only [step] at huid ⊢
      obtain ⟨u, hu, h2, h3⟩ := h uid huid
      refine ⟨u, ?_, h2, h3⟩
      rw [users_admin_dashboard_post]
      exact hu
  | editA token pid form =>
      intro uid huid
      simp only [step] at huid ⊢
      obtain ⟨u, hu, h2, h3⟩ := h uid huid
      refine ⟨u, ?_, h2, h3⟩
      rw [users_edit_project]
      exact hu
  | deleteA token pid =>
      intro uid huid
      simp only [step] at huid ⊢
      obtain ⟨u, hu, h2, h3⟩ := h uid huid
      refine ⟨u, ?_, h2, h3⟩
      rw [users_delete_project]
      exact hu
  | logoutA =>
      intro uid huid
      simp only [step] at huid
      exact Option.noConfusion huid

theorem run_preserves_SessionAdmin (chk : String → String → Bool)
    (sup : Option (UploadedFile → Option String)) (acts : List Action) :
    ∀ st, SessionAdmin st → SessionAdmin (run chk sup st acts) := by
  induction acts with
  | nil => exact fun st h => h
  | cons a as ih =>
      exact fun st h => ih _ (step_preserves_SessionAdmin chk sup st a h)

/-- Claim C10: starting from a sessionless state, every session ever
established over any request sequence is bound to a stored user whose
is_admin flag is true — login is the only step that sets a session and it
checks the flag first — while the create, edit and delete gates do not
depend on which user the session names, only on a session being present. -/
theorem C10_session_admin_invariant (chk : String → String → Bool)
    (sup : Option (UploadedFile → Option String)) (users : List User)
    (projects : List Project) (n0 : Nat) (acts : List Action)
    (token : String) (uid1 uid2 : Nat) (s : Store) (form : CreateForm)
    (nextId pid : Nat) :
    SessionAdmin (run chk sup ⟨⟨users, projects⟩, none, n0⟩ acts) ∧
    admin_dashboard_post sup token (some uid1) s form nextId
        = admin_dashboard_post sup token (some uid2) s form nextId ∧
    edit_project sup token (some uid1) s pid form
        = edit_project sup token (some uid2) s pid form ∧
    delete_project token (some uid1) s pid
        = delete_project token (some uid2) s pid := by
  refine ⟨run_preserves_SessionAdmin chk sup acts _ ?_, rfl, rfl, rfl⟩
  intro uid h
  exact Option.noConfusion h

end Portfolio
